import Mathlib

/-!
Shallow embedding of the git-server core (git adapter, blame stream parser,
protection rule engine, merge orchestrator, commit-files use case) together
with proofs of the specification claims about it.

Strings manipulated by the parsers are represented as lists of characters
(`Str`); Go byte slices are lists of naturals below 256.
-/

namespace Harness

/-- Character-list representation of the strings processed by the parsers. -/
abbrev Str := List Char

/-- Splits a character list on a single separator character, like Go
`strings.Split` with a one-character separator (used for the blame head
regular expression, whose groups are separated by single spaces). -/
def splitOnChar (sep : Char) : Str → List Str
  | [] => [[]]
  | x :: xs =>
    match splitOnChar sep xs with
    | g :: gs => if x = sep then [] :: g :: gs else (x :: g) :: gs
    | [] => [[x]]

/-- Substring containment test over character lists, like Go `strings.Contains`
(the empty needle is contained in every string). -/
def containsSub : Str → Str → Bool
  | _, [] => true
  | [], _ :: _ => false
  | x :: xs, n :: ns => (List.isPrefixOf (n :: ns) (x :: xs)) || containsSub xs (n :: ns)

/-- Go `strings.TrimPrefix`: removes the leading occurrence of `p`, if any. -/
def trimLeading (p s : Str) : Str :=
  if List.isPrefixOf p s then s.drop p.length else s

/-- Go `strings.TrimRight` with a cutset: removes trailing characters that are
in the cutset. -/
def trimRightAny (cutset : Str) (s : Str) : Str :=
  (s.reverse.dropWhile (fun c => cutset.contains c)).reverse

/-- Removal of the final `n` characters of a character list. -/
def dropRightN (n : Nat) (s : Str) : Str :=
  s.take (s.length - n)

/-- Digit-string test for the `\d+` groups of the blame head regular
expression: at least one character and all characters decimal digits. -/
def allDigits (s : Str) : Bool :=
  !s.isEmpty && s.all Char.isDigit

/-- Numeric value of a digit string (digits only, most significant first). -/
def digitsToNat (s : Str) : Nat :=
  s.foldl (fun acc c => acc * 10 + (c.toNat - 48)) 0

/-- Go `strconv.ParseInt` syntax: an optional sign followed by at least one
decimal digit; `none` on a syntax error. -/
def parseSignedDigits (s : Str) : Option Int :=
  match s with
  | '+' :: rest => if allDigits rest then some (Int.ofNat (digitsToNat rest)) else none
  | '-' :: rest => if allDigits rest then some (-(Int.ofNat (digitsToNat rest))) else none
  | _ => if allDigits s then some (Int.ofNat (digitsToNat s)) else none

/-- Go `strconv.ParseInt(s, 10, bits)` when the caller checks the error: the
value must be syntactically valid and fit the signed `bits`-width range. -/
def goParseIntChecked (bits : Nat) (s : Str) : Option Int :=
  match parseSignedDigits s with
  | none => none
  | some v => if -(2 ^ (bits - 1) : Int) ≤ v ∧ v < (2 ^ (bits - 1) : Int) then some v else none

/-- Go `strconv.ParseInt(s, 10, 64)` when the caller ignores the error, as in
the blame time parsing: a syntax error yields 0 and a range error yields the
clamped 64-bit bound. -/
def goParseInt64Lenient (s : Str) : Int :=
  match parseSignedDigits s with
  | none => 0
  | some v =>
    if v < -(2 ^ 63 : Int) then -(2 ^ 63 : Int)
    else if v ≥ (2 ^ 63 : Int) then (2 ^ 63 : Int) - 1
    else v

/-! Blame stream parser (gitrpc/internal/gitea/blame.go). -/

/-- Identity of an author or committer (types.Identity). -/
structure Identity where
  name : Str := []
  email : Str := []
deriving Repr, DecidableEq

/-- Signature of an author or committer; `when` is the UNIX timestamp in
seconds obtained from `extractTime` (types.Signature). -/
structure Signature where
  identity : Identity := {}
  whenUnix : Int := 0
deriving Repr, DecidableEq

/-- Commit metadata assembled from blame porcelain headers (types.Commit). -/
structure Commit where
  sha : Str
  title : Str := []
  message : Str := []
  author : Signature := {}
  committer : Signature := {}
deriving Repr, DecidableEq

instance : Inhabited Commit := ⟨{ sha := [] }⟩

/-- One blame block: a commit and the file lines attributed to it
(types.BlamePart). -/
structure BlamePart where
  commit : Commit
  lines : List Str
deriving Repr, DecidableEq

/-- Lower-case hexadecimal digit test for the `[0-9a-f]` class of
`blamePorcelainHeadRE`. -/
def isHexLower (c : Char) : Bool :=
  c.isDigit || ('a' ≤ c && c ≤ 'f')

/-- Valid commit SHA group of `blamePorcelainHeadRE`: exactly 40 or 64
lower-case hexadecimal characters. -/
def isBlameSHA (s : Str) : Bool :=
  (s.length = 40 || s.length = 64) && s.all isHexLower

/-- Match of `blamePorcelainHeadRE` (`^([0-9a-f]{40}|[0-9a-f]{64}) (\d+) (\d+)( (\d+))?$`)
against a line: returns the SHA group and the optional fifth group (the
number of lines in the section). The groups are separated by single spaces
and the digit groups are non-empty, so matching is splitting on spaces. -/
def parseBlameHead (line : Str) : Option (Str × Option Str) :=
  match splitOnChar ' ' line with
  | [sha, d1, d2] =>
    if isBlameSHA sha && allDigits d1 && allDigits d2 then some (sha, none) else none
  | [sha, d1, d2, d3] =>
    if isBlameSHA sha && allDigits d1 && allDigits d2 && allDigits d3 then
      some (sha, some d3)
    else none
  | _ => none

/-- Match of `blamePorcelainOutOfRangeErrorRE` (`has only \d+ lines$`): the
line ends with `has only `, a non-empty digit run, and ` lines`. -/
def matchHasOnlyLines (line : Str) : Bool :=
  List.isSuffixOf " lines".toList line &&
  (let s1 := dropRightN 6 line
   let ds := (s1.reverse.takeWhile Char.isDigit).reverse
   !ds.isEmpty && List.isSuffixOf "has only ".toList (dropRightN ds.length s1))

/-- Name extraction from a blame header value (`extractName`): the value is
returned unchanged. -/
def extractName (s : Str) : Str := s

/-- Email extraction from a blame header value (`extractEmail`): a value
wrapped between `<` and `>` is unwrapped, any other value passes through. -/
def extractEmail (s : Str) : Str :=
  if 2 ≤ s.length ∧ s.head? = some '<' ∧ s.getLast? = some '>' then
    dropRightN 1 (s.drop 1)
  else s

/-- Timestamp extraction from a blame header value (`extractTime`): UNIX
seconds parsed leniently, with unparsable values defaulting to epoch. -/
def extractTime (s : Str) : Int :=
  goParseInt64Lenient s

/-- Processing of one non-content blame metadata line (`parseBlameHeaders`):
recognized headers update the commit, others are ignored. -/
def parseBlameHeaders (line : Str) (commit : Commit) : Commit :=
  if List.isPrefixOf "summary ".toList line then
    { commit with title := extractName (line.drop 8) }
  else if List.isPrefixOf "author ".toList line then
    { commit with author.identity.name := extractName (line.drop 7) }
  else if List.isPrefixOf "author-mail ".toList line then
    { commit with author.identity.email := extractEmail (line.drop 12) }
  else if List.isPrefixOf "author-time ".toList line then
    { commit with author.whenUnix := extractTime (line.drop 12) }
  else if List.isPrefixOf "committer ".toList line then
    { commit with committer.identity.name := extractName (line.drop 10) }
  else if List.isPrefixOf "committer-mail ".toList line then
    { commit with committer.identity.email := extractEmail (line.drop 15) }
  else if List.isPrefixOf "committer-time ".toList line then
    { commit with committer.whenUnix := extractTime (line.drop 15) }
  else commit

/-- Classification codes used by the git RPC layer for errors surfaced to
callers (grpc status codes used by blame.go). -/
inductive StatusCode
  | notFound
  | invalidArgument
  | unknown
  | internal
deriving Repr, DecidableEq

/-- Error result of a `NextPart` call: end of stream, or a classified error. -/
inductive BlameErr
  | eof
  | status (code : StatusCode) (msg : Str)
deriving Repr, DecidableEq

/-- First line of the captured stderr output, as blame.go extracts it: the
text before the first newline when that newline is at a positive index,
otherwise the whole text. -/
def blameFirstLine (s : Str) : Str :=
  match splitOnChar '\n' s with
  | first :: _ :: _ => if first.isEmpty then s else first
  | _ => s

/-- Classification of non-empty stderr output captured during a blame run
(the switch at the end of `BlameReader.NextPart`): the first line with any
`fatal: ` marker removed is matched against the known git error texts. -/
def classifyBlameStderr (raw : Str) : BlameErr :=
  let line := trimLeading "fatal: ".toList (blameFirstLine raw)
  if containsSub line "no such path".toList then .status .notFound line
  else if containsSub line "bad revision".toList then .status .notFound line
  else if matchHasOnlyLines line then .status .invalidArgument line
  else .status .unknown line

/-- State of a `BlameReader`: the remaining scanner lines, the scanner error
reported after the stream ends (`none` for a normal end), the one-line
lookahead buffer (`lastLine`, empty when no line is pending), the per-stream
commit cache, and the captured stderr contents still to be read. -/
structure BlameReader where
  stream : List Str
  scanErr : Option Str := none
  lastLine : Str := []
  commitCache : List (Str × Commit) := []
  stderr : Str := []
deriving Repr, DecidableEq

/-- Lookup in the per-stream commit cache (`r.commitCache[sha]`). -/
def cacheFind (cache : List (Str × Commit)) (sha : Str) : Option Commit :=
  match cache.find? (fun p => p.1 = sha) with
  | some p => some p.2
  | none => none

/-- Store into the per-stream commit cache (`r.commitCache[sha] = commit`);
the new entry shadows any previous one. -/
def cacheInsert (cache : List (Str × Commit)) (sha : Str) (c : Commit) :
    List (Str × Commit) :=
  (sha, c) :: cache

/-- Outcome of the `NextPart` line loop: a block emitted on a commit change
(together with the pushed-back line, the rest of the stream and the updated
cache), or the end of the stream with the pending block state. -/
inductive LoopOut
  | emit (part : BlamePart) (lookahead : Str) (rest : List Str)
      (cache : List (Str × Commit))
  | done (commit : Option Commit) (lines : List Str)
      (cache : List (Str × Commit))

/-- Outcome of processing one non-empty line of the blame stream: continue
the loop with an updated pending block, or emit the completed block because a
header for a different commit was read (the read line is pushed back by the
caller). -/
inductive StepOut
  | next (commit : Option Commit) (lines : List Str)
  | emitBlock (part : BlamePart) (cache : List (Str × Commit))
deriving Repr, DecidableEq

/-- Processing of one non-empty line inside `BlameReader.NextPart`. A head
line starts a block (consulting the commit cache) or, for a different SHA,
completes the block (caching the finished commit); a tab-prefixed line is
content attributed to the current block; any other line is a metadata header
merged into the current commit; all lines before the first head line are
skipped. -/
def nextPartStep (cache : List (Str × Commit)) (commit : Option Commit)
    (lines : List Str) (l : Str) : StepOut :=
  match parseBlameHead l with
  | some (sha, _) =>
    match commit with
    | none => .next (some ((cacheFind cache sha).getD { sha := sha })) lines
    | some c =>
      if sha ≠ c.sha then .emitBlock ⟨c, lines⟩ (cacheInsert cache c.sha c)
      else .next (some c) lines
  | none =>
    match commit with
    | none => .next none lines
    | some c =>
      if l.head? = some '\t' then .next (some c) (lines ++ [l.drop 1])
      else .next (some (parseBlameHeaders l c)) lines

/-- Line loop of `BlameReader.NextPart`: empty lines are skipped (as in
`nextLine`), other lines are handed to `nextPartStep`; a completed block is
emitted with the unconsumed line as the one-line lookahead. -/
def nextPartLoop (cache : List (Str × Commit)) (commit : Option Commit)
    (lines : List Str) : List Str → LoopOut
  | [] => .done commit lines cache
  | l :: rest =>
    if l.isEmpty then nextPartLoop cache commit lines rest
    else
      match nextPartStep cache commit lines l with
      | .next commit' lines' => nextPartLoop cache commit' lines' rest
      | .emitBlock part cache' => .emit part l rest cache'

/-- Result of a `NextPart` call: the emitted part (if any), the returned
error (if any; `none` matches a nil Go error), and the reader state for the
following call. -/
structure NextPartResult where
  part : Option BlamePart
  err : Option BlameErr
  reader : BlameReader
deriving Repr, DecidableEq

/-- Embedding of `BlameReader.NextPart`. The pending lookahead line, when
present, is consumed first. When the loop ends at the end of the stream, a
non-empty stderr buffer is classified and returned as the error (consuming
the buffer); otherwise a scanner error is returned as Internal; otherwise the
pending block, if it has content lines, is returned together with the EOF
error. -/
def nextPart (r : BlameReader) : NextPartResult :=
  let start := if r.lastLine.isEmpty then r.stream else r.lastLine :: r.stream
  match nextPartLoop r.commitCache none [] start with
  | .emit part lookahead rest cache =>
    { part := some part, err := none
      reader := { r with stream := rest, lastLine := lookahead, commitCache := cache } }
  | .done commit lines cache =>
    let r' : BlameReader :=
      { r with stream := [], lastLine := [], commitCache := cache, stderr := [] }
    if !r.stderr.isEmpty then
      { part := none, err := some (classifyBlameStderr r.stderr), reader := r' }
    else
      match r.scanErr with
      | some e => { part := none, err := some (.status .internal e), reader := r' }
      | none =>
        match commit, lines with
        | some c, _ :: _ =>
          { part := some ⟨c, lines⟩, err := some .eof, reader := r' }
        | _, _ => { part := none, err := some .eof, reader := r' }

/-! Commit divergence counting (getCommitDivergence in the gitea adapter). -/

/-- Ahead/behind counts for one (from, to) ref pair (types.CommitDivergence);
the counts are 32-bit integers parsed from the rev-list output. -/
structure CommitDivergence where
  ahead : Int
  behind : Int
deriving Repr, DecidableEq

/-- Failure cases of the rev-list output parsing in `getCommitDivergence`. -/
inductive DivergenceErr
  | unexpectedOutput
  | parseAhead
  | parseBehind
deriving Repr, DecidableEq

/-- Go `strings.Cut(s, "\t")`: the text before and after the first tab, or
`none` when the string contains no tab. -/
def cutTab : Str → Option (Str × Str)
  | [] => none
  | c :: rest =>
    if c = '\t' then some ([], rest)
    else
      match cutTab rest with
      | some (before, after) => some (c :: before, after)
      | none => none

/-- Embedding of the output-parsing part of `getCommitDivergence`: the
rev-list `--count --left-right` stdout is cut at the first tab, both sides
are trimmed and parsed as 32-bit integers, the left count becoming Ahead and
the right count Behind. Any failure is an error, never a zero-valued
divergence result. -/
def getCommitDivergence (stdOut : Str) : Except DivergenceErr CommitDivergence :=
  match cutTab stdOut with
  | none => .error .unexpectedOutput
  | some (rawLeft, rawRight) =>
    let rawLeft := trimRightAny " \t".toList rawLeft
    let rawRight := trimRightAny " \t\n".toList rawRight
    match goParseIntChecked 32 rawLeft with
    | none => .error .parseAhead
    | some left =>
      match goParseIntChecked 32 rawRight with
      | none => .error .parseBehind
      | some right => .ok { ahead := left, behind := right }

/-! Commit listing rename handling (cleanupCommitsForRename and
getRenameDetails in the gitea adapter). -/

/-- Rename record for a path at a boundary commit (types.PathRenameDetails). -/
structure PathRenameDetails where
  oldPath : Str := []
  newPath : Str := []
  commitSHABefore : Str := []
  commitSHAAfter : Str := []
deriving Repr, DecidableEq

/-- Embedding of `cleanupCommitsForRename`: the leading commit of the page is
dropped when some rename detail marks it as the before side of a rename whose
old path equals the filtered path; otherwise the page is unchanged. -/
def cleanupCommitsForRename (commits : List Commit)
    (renameDetails : List PathRenameDetails) (path : Str) : List Commit :=
  match commits with
  | [] => commits
  | c0 :: _ =>
    if renameDetails.any (fun rd => c0.sha = rd.commitSHABefore ∧ path = rd.oldPath) then
      commits.drop 1
    else
      commits

/-- Embedding of `getRenameDetails`. The per-commit subprocess query
(`giteaGetRenameDetails`, a fixed path being understood) is supplied as the
oracle `q`; the returned pair is the rename-details list and the list of
commit SHAs the oracle was queried at, in order. Only the first commit of
the page, and (when the page has more than one commit) the last commit, are
queried; a query result naming a rename is recorded with the matching
boundary SHA. -/
def getRenameDetails (q : Str → PathRenameDetails) (commits : List Commit) :
    List PathRenameDetails × List Str :=
  match commits with
  | [] => ([], [])
  | first :: _ =>
    let rd := q first.sha
    let list1 :=
      if ¬rd.newPath.isEmpty ∨ ¬rd.oldPath.isEmpty then
        [{ rd with commitSHABefore := first.sha }]
      else []
    if commits.length = 1 then
      (list1, [first.sha])
    else
      let lastC := commits.getLast!
      let rdLast := q lastC.sha
      let list2 :=
        if ¬rdLast.newPath.isEmpty ∨ ¬rdLast.oldPath.isEmpty then
          [{ rdLast with commitSHAAfter := lastC.sha }]
        else []
      (list1 ++ list2, [first.sha, lastC.sha])

/-! Domain entities shared by the protection rule engine and the use cases. -/

/-- Acting principal (types.Principal; the fields the core reads). -/
structure Principal where
  id : Int
  displayName : String
  email : String
deriving Repr, DecidableEq

/-- Authenticated session wrapping the acting principal (auth.Session). -/
structure Session where
  principal : Principal
deriving Repr, DecidableEq

/-- Repository row (types.Repository; the fields the core reads). -/
structure Repository where
  id : Int
  gitUID : String
  path : String
deriving Repr, DecidableEq

/-- Pull request state (enum.PullReqState). -/
inductive PullReqState
  | opened
  | merged
  | closed
deriving Repr, DecidableEq

/-- Merge check status (enum.MergeCheckStatus). -/
inductive MergeCheckStatus
  | unchecked
  | mergeable
  | conflict
deriving Repr, DecidableEq

/-- Merge method (enum.MergeMethod). The input value is represented by this
enumeration, so the `Sanitize` membership check of the controller always
succeeds. -/
inductive MergeMethod
  | merge
  | squash
  | rebase
deriving Repr, DecidableEq

/-- Pull request row (types.PullReq; the fields the merge use case reads and
writes). -/
structure PullReq where
  id : Int
  number : Int
  title : String
  sourceRepoID : Int
  targetRepoID : Int
  sourceBranch : String
  targetBranch : String
  sourceSHA : String
  state : PullReqState
  isDraft : Bool
  merged : Option Int := none
  mergedBy : Option Int := none
  mergeMethod : Option MergeMethod := none
  mergeCheckStatus : MergeCheckStatus
  mergeTargetSHA : Option String := none
  mergeBaseSHA : String := ""
  mergeSHA : Option String := none
  mergeConflicts : List String := []
  activitySeq : Int := 0
deriving Repr, DecidableEq

/-- Pull request reviewer row (types.PullReqReviewer; opaque to the core). -/
structure Reviewer where
  principalID : Int
deriving Repr, DecidableEq

/-- Status check result row (types.CheckResult; opaque to the core). -/
structure CheckResult where
  id : Int
deriving Repr, DecidableEq

/-- Code-owner approval evaluation (codeowners.Evaluation; opaque to the
core, passed through to the protection rule engine). -/
structure CodeOwnerEvaluation where
  approved : Bool
deriving Repr, DecidableEq

/-! Protection rule engine (app/services/protection). -/

/-- Single violation message with its code. Modelled from the spec: the
`types.Violation` definition is not among the sources; the spec data model
gives `Violations[] (message + code)`. -/
structure Violation where
  code : String
  message : String
deriving Repr, DecidableEq

/-- Violations produced by one rule evaluation with the uniform bypass flag.
Modelled from the spec: the `types.RuleViolations` definition is not among
the sources; the spec data model gives `{Rule reference, Violations[],
Bypassed bool}`. -/
structure RuleViolations where
  ruleRef : String := ""
  bypassed : Bool := false
  violations : List Violation := []
deriving Repr, DecidableEq

/-- Criticality of one rule evaluation result. Modelled from the spec: the
`IsCritical` helper of the protection package is not among the sources; per
the spec a violation is critical exactly when the rule evaluation did not
grant bypass, and an evaluation with no violations blocks nothing. -/
def RuleViolations.isCritical (rv : RuleViolations) : Bool :=
  !rv.bypassed && !rv.violations.isEmpty

/-- Criticality of a combined violation list. Modelled from the spec: any
critical violation anywhere in the result must block the operation. -/
def IsCritical (violations : List RuleViolations) : Bool :=
  violations.any (·.isCritical)

/-- Reference type of a proposed ref change (protection.RefType). -/
inductive RefType
  | branch
  | tag
deriving Repr, DecidableEq

/-- Input of a merge verification (protection.MergeVerifyInput; the fields
the branch rule and the merge controller use). -/
structure MergeVerifyInput where
  actor : Option Principal
  allowBypass : Bool
  isRepoOwner : Bool
  targetRepo : Repository
  sourceRepo : Repository
  pullReq : PullReq
  reviewers : List Reviewer
  method : MergeMethod
  checkResults : List CheckResult
  codeOwners : Option CodeOwnerEvaluation
deriving Repr, DecidableEq

/-- Input of a ref-change verification (protection.RefChangeVerifyInput). -/
structure RefChangeVerifyInput where
  actor : Option Principal
  allowBypass : Bool
  isRepoOwner : Bool
  repo : Repository
  refType : RefType
  refNames : List String
deriving Repr, DecidableEq

/-- Merge-output modifier returned by a merge verification
(protection.MergeVerifyOutput; the field the merge controller reads). -/
structure MergeVerifyOutput where
  deleteSourceBranch : Bool := false
deriving Repr, DecidableEq

/-- Branch protection rule (protection.Branch). Its three policy definitions
(`DefBypass`, `DefPullReq`, `DefLifecycle`) are not among the sources, so
they are abstracted as the rule's policy functions: the bypass match
predicate over (actor, is-repo-owner), the pull-request merge check and the
lifecycle ref-change check, the latter two returning a violation list and an
optional error as the Go methods do. -/
structure BranchRule where
  bypassMatches : Option Principal → Bool → Bool
  pullReqMergeVerify :
    MergeVerifyInput → MergeVerifyOutput × List RuleViolations × Option String
  lifecycleRefChangeVerify :
    RefChangeVerifyInput → List RuleViolations × Option String

/-- Embedding of `Branch.MergeVerify`: the pull-request policy runs first;
on success the bypass flag computed once from the input and the rule's bypass
policy is stamped uniformly on every returned violation. -/
def BranchRule.mergeVerify (v : BranchRule) (i : MergeVerifyInput) :
    MergeVerifyOutput × List RuleViolations × Option String :=
  let (out, violations, err) := v.pullReqMergeVerify i
  if err.isSome then
    (out, violations, err)
  else
    let bypassed := i.allowBypass && v.bypassMatches i.actor i.isRepoOwner
    (out, violations.map (fun rv => { rv with bypassed := bypassed }), none)

/-- Embedding of `Branch.RefChangeVerify`: non-branch ref types and empty
ref-name lists yield an empty violation list; otherwise the lifecycle policy
runs and the uniform bypass flag is stamped on every returned violation. -/
def BranchRule.refChangeVerify (v : BranchRule) (i : RefChangeVerifyInput) :
    List RuleViolations × Option String :=
  if i.refType ≠ RefType.branch ∨ i.refNames.isEmpty then
    ([], none)
  else
    let (violations, err) := v.lifecycleRefChangeVerify i
    let bypassed := i.allowBypass && v.bypassMatches i.actor i.isRepoOwner
    (violations.map (fun rv => { rv with bypassed := bypassed }), err)

/-! Write parameters for git RPC write operations
(app/api/controller/util.go). -/

/-- Hook environment variables carried by write parameters. Modelled from the
spec: `githook.GenerateEnvironmentVariables` is not among the sources; per
the spec the variables carry the internal API base URL, the repo ID, the
principal ID and the internal/external flag. -/
structure HookEnv where
  apiURL : String
  repoID : Int
  principalID : Int
  isInternal : Bool
deriving Repr, DecidableEq

/-- Actor identity stamped on git RPC operations (gitrpc.Identity). -/
structure GitIdentity where
  name : String
  email : String
deriving Repr, DecidableEq

/-- Write parameters of a git RPC write operation (gitrpc.WriteParams). -/
structure WriteParams where
  actor : GitIdentity
  repoUID : String
  envVars : HookEnv
deriving Repr, DecidableEq

/-- Embedding of `createRPCWriteParams`: the actor comes from the session
principal, the repo UID and the hook environment variables from the given
repository and principal. -/
def createRPCWriteParams (apiURL : String) (session : Session)
    (repo : Repository) (isInternal : Bool) : WriteParams :=
  { actor := { name := session.principal.displayName, email := session.principal.email }
    repoUID := repo.gitUID
    envVars :=
      { apiURL := apiURL, repoID := repo.id
        principalID := session.principal.id, isInternal := isInternal } }

/-- Embedding of `CreateRPCInternalWriteParams`. -/
def createRPCInternalWriteParams (apiURL : String) (session : Session)
    (repo : Repository) : WriteParams :=
  createRPCWriteParams apiURL session repo true

/-- Identity conversion `rpcIdentityFromPrincipal`. -/
def rpcIdentityFromPrincipal (p : Principal) : GitIdentity :=
  { name := p.displayName, email := p.email }

/-- Principal of the system service account
(bootstrap.NewSystemServiceSession, not among the sources: the committer
identity of internal write operations per the spec). -/
def systemServicePrincipal : Principal :=
  { id := 0, displayName := "Gitness", email := "system@gitness.io" }

/-! Merge orchestrator (Controller.Merge of the pullreq controller). -/

/-- Input of the merge use case (pullreq.MergeInput). -/
structure MergeInput where
  method : MergeMethod
  sourceSHA : String
  bypassRules : Bool
  dryRun : Bool
deriving Repr, DecidableEq

/-- Parameters of the git RPC merge operation (gitrpc.MergeParams; the fields
the merge controller sets). -/
structure MergeParams where
  writeParams : WriteParams
  baseBranch : String
  headRepoUID : String
  headBranch : String
  title : String := ""
  message : String := ""
  committer : Option GitIdentity := none
  author : Option GitIdentity := none
  refType : Option RefType := none
  refName : String := ""
  headExpectedSHA : String
  method : Option MergeMethod := none
deriving Repr, DecidableEq

/-- Parameters of the git RPC branch deletion (gitrpc.DeleteBranchParams). -/
structure DeleteBranchParams where
  writeParams : WriteParams
  branchName : String
deriving Repr, DecidableEq

/-- Result of the git RPC merge operation (gitrpc.MergeOutput). -/
structure MergeOutput where
  baseSHA : String
  mergeBaseSHA : String
  mergeSHA : String
  headSHA : String
deriving Repr, DecidableEq

/-- Failure of a git RPC write operation, as the merge controller branches on
it: the NotMergeable status carries the conflicting file list. -/
inductive GitErr
  | notMergeable (conflictFiles : List String)
  | other (msg : String)
deriving Repr, DecidableEq

/-- Error returned by the merge use case: a user-facing bad request or a
wrapped internal failure. -/
inductive MergeErr
  | badRequest (msg : String)
  | internal (msg : String)
deriving Repr, DecidableEq

/-- Merge response on the non-violation path (types.MergeResponse). -/
structure MergeResponse where
  dryRun : Bool
  sha : String
  branchDeleted : Bool
  conflictFiles : List String
  ruleViolations : List RuleViolations
deriving Repr, DecidableEq

/-- Violation result of the merge use case (types.MergeViolations): returned
as structured data with a nil error. -/
structure MergeViolationsOut where
  conflictFiles : List String := []
  ruleViolations : List RuleViolations
deriving Repr, DecidableEq

/-- Overall result of `Controller.Merge`: exactly one of the Go triple
(response, violations, error) is non-nil on every return path. -/
inductive MergeResult
  | response (r : MergeResponse)
  | violations (v : MergeViolationsOut)
  | failure (e : MergeErr)
deriving Repr, DecidableEq

/-- Externally visible operations the merge use case performs, in order: git
merge invocations (including the dry-run probe), the optimistic-lock pull
request update (carrying the written row), the activity entry, the merged
event, and the source branch deletion. -/
inductive MergeEffect
  | gitMerge (p : MergeParams)
  | prUpdate (pr : PullReq)
  | activity
  | event
  | deleteBranch (p : DeleteBranchParams)
deriving Repr, DecidableEq

/-- Failure of the code-owner evaluation: the not-found case is tolerated by
the merge controller. -/
inductive CodeOwnersErr
  | notFound
  | other (msg : String)
deriving Repr, DecidableEq

/-- Responses of the collaborators the merge use case calls, observed under
the merge lock. Single-call collaborators are response values; the repo
lookup, the rule-set merge verification and the git merge are functions of
their arguments. `forRepository` returns the loaded rule set as its
verification function. -/
structure MergeEnv where
  apiURL : String
  now : Int
  getRepoCheckAccess : Except MergeErr Repository
  lockErr : Option MergeErr := none
  findPR : Except MergeErr PullReq
  listReviewers : Except MergeErr (List Reviewer)
  isRepoOwner : Except MergeErr Bool
  listCheckResults : Except MergeErr (List CheckResult)
  forRepository :
    Except MergeErr (MergeVerifyInput → Except MergeErr (MergeVerifyOutput × List RuleViolations))
  codeOwnersEvaluate : Except CodeOwnersErr CodeOwnerEvaluation
  findRepo : Int → Except MergeErr Repository
  gitMerge : MergeParams → Except GitErr MergeOutput
  updateErr : Option MergeErr := none
  deleteBranchErr : Option GitErr := none

/-- Embedding of `Controller.Merge`, returning the result together with the
list of performed write-side effects. The control flow mirrors the source:
guards on the re-read pull request, write-parameter construction across the
fork boundary (the source-repository write parameters are created from the
`sourceRepo` variable before `repoStore.Find` re-assigns it, as in the
source), protection verification with the critical-violation short circuit,
the dry-run probe, and the merge with its follow-up state update and
best-effort branch deletion. -/
def ControllerMerge (env : MergeEnv) (session : Session) (input : MergeInput) :
    MergeResult × List MergeEffect :=
  match env.getRepoCheckAccess with
  | .error e => (.failure e, [])
  | .ok targetRepo =>
  match env.lockErr with
  | some e => (.failure e, [])
  | none =>
  match env.findPR with
  | .error e => (.failure e, [])
  | .ok pr =>
  if pr.merged.isSome then
    (.failure (.badRequest "Pull request already merged"), [])
  else if pr.state ≠ PullReqState.opened then
    (.failure (.badRequest "Pull request must be open"), [])
  else if pr.sourceSHA ≠ input.sourceSHA then
    (.failure (.badRequest "A newer commit is available. Only the latest commit can be merged."), [])
  else if pr.isDraft then
    (.failure (.badRequest "Draft pull requests can't be merged. Clear the draft flag first."), [])
  else
  match env.listReviewers with
  | .error e => (.failure e, [])
  | .ok reviewers =>
  let targetWriteParams := createRPCInternalWriteParams env.apiURL session targetRepo
  let sourceRepo := targetRepo
  let sourceWriteParams := targetWriteParams
  let forkRes : Except MergeErr (Repository × WriteParams) :=
    if pr.sourceRepoID ≠ pr.targetRepoID then
      let sourceWriteParams := createRPCInternalWriteParams env.apiURL session sourceRepo
      match env.findRepo pr.sourceRepoID with
      | .error e => .error e
      | .ok r => .ok (r, sourceWriteParams)
    else
      .ok (sourceRepo, sourceWriteParams)
  match forkRes with
  | .error e => (.failure e, [])
  | .ok (sourceRepo, sourceWriteParams) =>
  match env.isRepoOwner with
  | .error e => (.failure e, [])
  | .ok isRepoOwner =>
  match env.listCheckResults with
  | .error e => (.failure e, [])
  | .ok checkResults =>
  match env.forRepository with
  | .error e => (.failure e, [])
  | .ok protectionRules =>
  let coRes : Except MergeErr (Option CodeOwnerEvaluation) :=
    match env.codeOwnersEvaluate with
    | .ok co => .ok (some co)
    | .error .notFound => .ok none
    | .error (.other msg) => .error (.internal msg)
  match coRes with
  | .error e => (.failure e, [])
  | .ok codeOwnerWithApproval =>
  match protectionRules
      { actor := some session.principal, allowBypass := input.bypassRules
        isRepoOwner := isRepoOwner, targetRepo := targetRepo, sourceRepo := sourceRepo
        pullReq := pr, reviewers := reviewers, method := input.method
        checkResults := checkResults, codeOwners := codeOwnerWithApproval } with
  | .error e => (.failure e, [])
  | .ok (ruleOut, violations) =>
  if IsCritical violations then
    (.violations { ruleViolations := violations }, [])
  else if input.dryRun then
    let out : MergeResponse :=
      { dryRun := true, sha := "", branchDeleted := ruleOut.deleteSourceBranch
        conflictFiles := pr.mergeConflicts, ruleViolations := violations }
    if pr.mergeCheckStatus = MergeCheckStatus.unchecked then
      let probeParams : MergeParams :=
        { writeParams := targetWriteParams, baseBranch := pr.targetBranch
          headRepoUID := sourceRepo.gitUID, headBranch := pr.sourceBranch
          headExpectedSHA := input.sourceSHA }
      match env.gitMerge probeParams with
      | .error (.notMergeable conflictFiles) =>
        (.response { out with conflictFiles := conflictFiles }, [.gitMerge probeParams])
      | .error (.other msg) => (.failure (.internal msg), [.gitMerge probeParams])
      | .ok _ => (.response out, [.gitMerge probeParams])
    else
      (.response out, [])
  else
    let mergeTitle :=
      if input.method = MergeMethod.squash then
        pr.title ++ " (#" ++ toString pr.number ++ ")"
      else
        "Merge branch '" ++ pr.sourceBranch ++ "' of " ++ sourceRepo.path
          ++ " (#" ++ toString pr.number ++ ")"
    let mergeParams : MergeParams :=
      { writeParams := targetWriteParams, baseBranch := pr.targetBranch
        headRepoUID := sourceRepo.gitUID, headBranch := pr.sourceBranch
        title := mergeTitle, message := ""
        committer := some (rpcIdentityFromPrincipal systemServicePrincipal)
        author := some (rpcIdentityFromPrincipal session.principal)
        refType := some RefType.branch, refName := pr.targetBranch
        headExpectedSHA := input.sourceSHA, method := some input.method }
    match env.gitMerge mergeParams with
    | .error (.notMergeable conflictFiles) =>
      (.violations { conflictFiles := conflictFiles, ruleViolations := violations },
        [.gitMerge mergeParams])
    | .error (.other msg) => (.failure (.internal msg), [.gitMerge mergeParams])
    | .ok mergeOutput =>
      let prUpd : PullReq :=
        { pr with
            state := PullReqState.merged
            merged := some env.now
            mergedBy := some session.principal.id
            mergeMethod := some input.method
            mergeCheckStatus := MergeCheckStatus.mergeable
            mergeTargetSHA := some mergeOutput.baseSHA
            mergeBaseSHA := mergeOutput.mergeBaseSHA
            mergeSHA := some mergeOutput.mergeSHA
            mergeConflicts := []
            activitySeq := pr.activitySeq + 1 }
      match env.updateErr with
      | some e => (.failure e, [.gitMerge mergeParams])
      | none =>
        let effects := [MergeEffect.gitMerge mergeParams, .prUpdate prUpd, .activity, .event]
        if ruleOut.deleteSourceBranch then
          let delParams : DeleteBranchParams :=
            { writeParams := sourceWriteParams, branchName := pr.sourceBranch }
          let deleted := env.deleteBranchErr.isNone
          (.response
            { dryRun := false, sha := mergeOutput.mergeSHA, branchDeleted := deleted
              conflictFiles := [], ruleViolations := violations },
            effects ++ [.deleteBranch delParams])
        else
          (.response
            { dryRun := false, sha := mergeOutput.mergeSHA, branchDeleted := false
              conflictFiles := [], ruleViolations := violations },
            effects)

/-! Commit-files use case (Controller.CommitFiles of the repo controller). -/

/-- Raw bytes of a payload (values below 256). -/
abbrev Bytes := List Nat

/-- Value of one byte in the standard base64 alphabet, `none` for a byte
outside the alphabet (Go `encoding/base64` StdEncoding). -/
def b64Val (c : Nat) : Option Nat :=
  if 65 ≤ c ∧ c ≤ 90 then some (c - 65)
  else if 97 ≤ c ∧ c ≤ 122 then some (c - 97 + 26)
  else if 48 ≤ c ∧ c ≤ 57 then some (c - 48 + 52)
  else if c = 43 then some 62
  else if c = 47 then some 63
  else none

/-- Decoding of base64 quanta after newline filtering, following Go
`encoding/base64` StdEncoding: four symbols per quantum; `=` padding may
appear only at the third or fourth symbol of the final quantum (`xx==` or
`xxx=`) and must be followed by the end of the input; any other shape is a
CorruptInputError (`none`). -/
def b64Quanta : Bytes → Option Bytes
  | [] => some []
  | c1 :: c2 :: c3 :: c4 :: rest =>
    match b64Val c1, b64Val c2 with
    | some v1, some v2 =>
      if c3 = 61 then
        if c4 = 61 ∧ rest = [] then some [v1 * 4 + v2 / 16]
        else none
      else
        match b64Val c3 with
        | some v3 =>
          if c4 = 61 then
            if rest = [] then some [v1 * 4 + v2 / 16, (v2 % 16) * 16 + v3 / 4]
            else none
          else
            match b64Val c4 with
            | some v4 =>
              match b64Quanta rest with
              | some tl =>
                some ([v1 * 4 + v2 / 16, (v2 % 16) * 16 + v3 / 4, (v3 % 4) * 64 + v4] ++ tl)
              | none => none
            | none => none
        | none => none
    | _, _ => none
  | _ => none

/-- Go `base64.StdEncoding.DecodeString` over the payload bytes: carriage
returns and line feeds are ignored, then the input is decoded in four-symbol
quanta; `none` is a CorruptInputError. -/
def goBase64Decode (input : Bytes) : Option Bytes :=
  b64Quanta (input.filter (fun c => c ≠ 10 ∧ c ≠ 13))

/-- File operation kind (gitrpc.FileAction). -/
inductive FileAction
  | create
  | update
  | delete
  | move
deriving Repr, DecidableEq

/-- Payload content encoding (enum.ContentEncodingType); an unset encoding is
represented by `unspecified` and handled by the default branch like any
unknown value. -/
inductive ContentEncodingType
  | base64
  | utf8
  | unspecified
deriving Repr, DecidableEq

/-- One requested file action (repo.CommitFileAction); the payload carries
the raw bytes of the request string. -/
structure CommitFileAction where
  action : FileAction
  path : String
  payload : Bytes
  encoding : ContentEncodingType
  sha : String
deriving Repr, DecidableEq

/-- Options of a commit-files call (repo.CommitFilesOptions). -/
structure CommitFilesOptions where
  title : String
  message : String
  branch : String
  newBranch : String
  actions : List CommitFileAction
deriving Repr, DecidableEq

/-- One decoded file action handed to the git RPC write
(gitrpc.CommitFileAction). -/
structure GitCommitFileAction where
  action : FileAction
  path : String
  payload : Bytes
  sha : String
deriving Repr, DecidableEq

/-- Parameters of the git RPC commit-files write (gitrpc.CommitFilesParams;
the fields the controller sets). -/
structure CommitFilesParams where
  writeParams : WriteParams
  title : String
  message : String
  branch : String
  newBranch : String
  actions : List GitCommitFileAction
  committer : GitIdentity
  author : GitIdentity
deriving Repr, DecidableEq

/-- Error returned by the commit-files use case. -/
inductive CommitFilesErr
  | accessDenied (msg : String)
  | internal (msg : String)
  | base64DecodeFailure
  | gitWriteFailed (msg : String)
deriving Repr, DecidableEq

/-- Classification of commit-files errors surfaced to API callers. Modelled
from the spec: the error-translation layer is not among the sources; per the
spec a payload that fails to decode is an InvalidArgument. -/
def classifyCommitFilesErr : CommitFilesErr → StatusCode
  | .accessDenied _ => .notFound
  | .internal _ => .internal
  | .base64DecodeFailure => .invalidArgument
  | .gitWriteFailed _ => .internal

/-- Result row of a successful commit-files call
(types.CommitFilesResponse). -/
structure CommitFilesResponse where
  commitID : String := ""
  ruleViolations : List RuleViolations := []
deriving Repr, DecidableEq

/-- Externally visible write operation of the commit-files use case. -/
inductive CommitFilesEffect
  | gitCommitFiles (p : CommitFilesParams)
deriving Repr, DecidableEq

/-- Decoding loop of `Controller.CommitFiles`: each action's payload is
decoded according to its encoding — base64 payloads through the Go decoder,
failing the whole call on a corrupt payload, and utf8 or any other encoding
passing the payload bytes through unchanged. -/
def decodeActions : List CommitFileAction → Except CommitFilesErr (List GitCommitFileAction)
  | [] => .ok []
  | a :: rest =>
    let raw : Except CommitFilesErr Bytes :=
      match a.encoding with
      | .base64 =>
        match goBase64Decode a.payload with
        | some b => .ok b
        | none => .error .base64DecodeFailure
      | _ => .ok a.payload
    match raw with
    | .error e => .error e
    | .ok rawPayload =>
      match decodeActions rest with
      | .error e => .error e
      | .ok tl =>
        .ok ({ action := a.action, path := a.path, payload := rawPayload, sha := a.sha } :: tl)

/-- Responses of the collaborators the commit-files use case calls. The
CanPush rule verification is a response value; the git RPC commit write is a
function of its parameters. -/
structure CommitFilesEnv where
  apiURL : String
  getRepoCheckAccess : Except CommitFilesErr Repository
  isSpaceAdmin : Except CommitFilesErr Bool
  forRepository : Except CommitFilesErr Unit
  canPush : Except CommitFilesErr (List RuleViolations)
  gitCommitFiles : CommitFilesParams → Except CommitFilesErr String

/-- Protection stage of `Controller.CommitFiles`: a call targeting an
existing branch (no new branch name) checks space ownership, loads the
repository's protection rules and runs CanPush, short-circuiting with the
violation list when a critical violation is present; a call creating a new
branch skips the protection check entirely. -/
def commitFilesProtectCheck (env : CommitFilesEnv) (input : CommitFilesOptions) :
    Except CommitFilesErr (Option (List RuleViolations)) :=
  if input.newBranch = "" then
    match env.isSpaceAdmin with
    | .error e => .error e
    | .ok _ =>
      match env.forRepository with
      | .error e => .error e
      | .ok _ =>
        match env.canPush with
        | .error e => .error e
        | .ok violations =>
          if IsCritical violations then .ok (some violations) else .ok none
  else
    .ok none

/-- Embedding of `Controller.CommitFiles`, returning the result together
with the performed git writes. A call targeting an existing branch (no new
branch name) runs the CanPush protection check first and returns the
violation list without any git write when a critical violation is present;
then the payloads are decoded and the commit is written with the system
service account as committer and the session principal as author. -/
def ControllerCommitFiles (env : CommitFilesEnv) (session : Session)
    (input : CommitFilesOptions) :
    Except CommitFilesErr CommitFilesResponse × List CommitFilesEffect :=
  match env.getRepoCheckAccess with
  | .error e => (.error e, [])
  | .ok repo =>
  match commitFilesProtectCheck env input with
  | .error e => (.error e, [])
  | .ok (some violations) => (.ok { ruleViolations := violations }, [])
  | .ok none =>
    match decodeActions input.actions with
    | .error e => (.error e, [])
    | .ok actions =>
      let writeParams := createRPCInternalWriteParams env.apiURL session repo
      let params : CommitFilesParams :=
        { writeParams := writeParams
          title := input.title, message := input.message
          branch := input.branch, newBranch := input.newBranch
          actions := actions
          committer := rpcIdentityFromPrincipal systemServicePrincipal
          author := rpcIdentityFromPrincipal session.principal }
      match env.gitCommitFiles params with
      | .error e => (.error e, [.gitCommitFiles params])
      | .ok commitID => (.ok { commitID := commitID }, [.gitCommitFiles params])

/-! Helper lemmas about the blame parser. -/

theorem splitOnChar_ne_nil (sep : Char) (s : Str) : splitOnChar sep s ≠ [] := by
  induction s with
  | nil => simp [splitOnChar]
  | cons x xs ih =>
    simp only [splitOnChar]
    cases h : splitOnChar sep xs with
    | nil => exact absurd h ih
    | cons g gs =>
      by_cases hx : x = sep <;> simp [hx]

theorem parseBlameHead_nil : parseBlameHead [] = none := rfl

theorem parseBlameHead_isEmpty_false {l : Str} {x : Str × Option Str}
    (h : parseBlameHead l = some x) : l.isEmpty = false := by
  cases l with
  | nil => rw [parseBlameHead_nil] at h; exact absurd h (by simp)
  | cons c cs => rfl

theorem parseBlameHead_tab (c : Str) : parseBlameHead ('\t' :: c) = none := by
  have hne := splitOnChar_ne_nil ' ' c
  unfold parseBlameHead splitOnChar
  cases h : splitOnChar ' ' c with
  | nil => exact absurd h hne
  | cons g gs =>
    have htab : ('\t' = ' ') = False := by simp
    simp only [htab, if_false, eq_self_iff_true]
    have hsha : isBlameSHA ('\t' :: g) = false := by
      simp [isBlameSHA, isHexLower]
    match gs with
    | [] => rfl
    | [_] => rfl
    | [_, _] => simp [hsha]
    | [_, _, _] => simp [hsha]
    | _ :: _ :: _ :: _ :: _ => rfl

theorem nextPartLoop_cons {l : Str} (cache : List (Str × Commit))
    (commit : Option Commit) (lines : List Str) (rest : List Str)
    (hl : l.isEmpty = false) :
    nextPartLoop cache commit lines (l :: rest) =
      match nextPartStep cache commit lines l with
      | .next commit' lines' => nextPartLoop cache commit' lines' rest
      | .emitBlock part cache' => .emit part l rest cache' := by
  conv_lhs => rw [nextPartLoop]
  simp [hl]

theorem nextPartLoop_head_fresh {l : Str} {sha : Str} {n : Option Str}
    (cache : List (Str × Commit)) (lines : List Str) (rest : List Str)
    (h : parseBlameHead l = some (sha, n)) (hc : cacheFind cache sha = none) :
    nextPartLoop cache none lines (l :: rest) =
      nextPartLoop cache (some { sha := sha }) lines rest := by
  rw [nextPartLoop_cons cache none lines rest (parseBlameHead_isEmpty_false h)]
  simp [nextPartStep, h, hc]

theorem nextPartLoop_head_same {l : Str} {sha : Str} {n : Option Str} {c : Commit}
    (cache : List (Str × Commit)) (lines : List Str) (rest : List Str)
    (h : parseBlameHead l = some (sha, n)) (hsha : sha = c.sha) :
    nextPartLoop cache (some c) lines (l :: rest) =
      nextPartLoop cache (some c) lines rest := by
  rw [nextPartLoop_cons cache (some c) lines rest (parseBlameHead_isEmpty_false h)]
  simp [nextPartStep, h, hsha]

theorem nextPartLoop_head_change {l : Str} {sha : Str} {n : Option Str} {c : Commit}
    (cache : List (Str × Commit)) (lines : List Str) (rest : List Str)
    (h : parseBlameHead l = some (sha, n)) (hsha : sha ≠ c.sha) :
    nextPartLoop cache (some c) lines (l :: rest) =
      .emit ⟨c, lines⟩ l rest (cacheInsert cache c.sha c) := by
  rw [nextPartLoop_cons cache (some c) lines rest (parseBlameHead_isEmpty_false h)]
  simp [nextPartStep, h, hsha]

theorem nextPartLoop_tab {t : Str} {c : Commit}
    (cache : List (Str × Commit)) (lines : List Str) (rest : List Str) :
    nextPartLoop cache (some c) lines (('\t' :: t) :: rest) =
      nextPartLoop cache (some c) (lines ++ [t]) rest := by
  rw [nextPartLoop_cons cache (some c) lines rest
    (show (('\t' :: t : Str)).isEmpty = false from rfl)]
  simp [nextPartStep, parseBlameHead_tab]

theorem nextPartLoop_nil (cache : List (Str × Commit)) (commit : Option Commit)
    (lines : List Str) : nextPartLoop cache commit lines [] = .done commit lines cache :=
  rfl

/-! Claims about the blame parser. -/

/-- Claim C4: a blame porcelain stream whose consecutive header lines carry
the same commit SHA is merged into a single BlamePart holding all the
tab-prefixed content lines of those sections, and a header line with a
different SHA is pushed back (one-line lookahead) while the completed block
is emitted as a record with a nil error. -/
theorem blame_same_sha_sections_merge
    {s s' : Str} {n1 n2 n3 : Option Str} {head1 head2 headDiff : Str}
    (c1 c2 : Str) (rest : List Str) (stderrBuf : Str) (scanE : Option Str)
    (h1 : parseBlameHead head1 = some (s, n1))
    (h2 : parseBlameHead head2 = some (s, n2))
    (h3 : parseBlameHead headDiff = some (s', n3))
    (hne : s' ≠ s) :
    nextPart
      { stream := [head1, '\t' :: c1, head2, '\t' :: c2, headDiff] ++ rest
        scanErr := scanE, lastLine := [], commitCache := [], stderr := stderrBuf } =
      { part := some ⟨{ sha := s }, [c1, c2]⟩
        err := none
        reader :=
          { stream := rest, scanErr := scanE, lastLine := headDiff
            commitCache := [(s, { sha := s })], stderr := stderrBuf } } := by
  have hloop : nextPartLoop [] none []
      (head1 :: ('\t' :: c1) :: head2 :: ('\t' :: c2) :: headDiff :: rest) =
      LoopOut.emit ⟨{ sha := s }, [c1, c2]⟩ headDiff rest [(s, { sha := s })] := by
    rw [nextPartLoop_head_fresh _ _ _ h1 (show cacheFind [] s = none from rfl)]
    rw [nextPartLoop_tab]
    rw [nextPartLoop_head_same _ _ _ h2 rfl]
    rw [nextPartLoop_tab]
    rw [nextPartLoop_head_change _ _ _ h3 hne]
    rfl
  unfold nextPart
  simp [hloop]

/-- Witness for C4 at a concrete stream: two sections of the all-a SHA merge
into one part and the all-b header is pushed back. -/
theorem blame_same_sha_sections_merge_witness :
    nextPart
      { stream := [List.replicate 40 'a' ++ " 1 1 1".toList,
                   '\t' :: "hello".toList,
                   List.replicate 40 'a' ++ " 2 2".toList,
                   '\t' :: "world".toList,
                   List.replicate 40 'b' ++ " 3 3 1".toList] ++ []
        scanErr := none, lastLine := [], commitCache := [], stderr := [] } =
      { part := some ⟨{ sha := List.replicate 40 'a' }, ["hello".toList, "world".toList]⟩
        err := none
        reader :=
          { stream := [], scanErr := none
            lastLine := List.replicate 40 'b' ++ " 3 3 1".toList
            commitCache := [(List.replicate 40 'a', { sha := List.replicate 40 'a' })]
            stderr := [] } } :=
  @blame_same_sha_sections_merge (List.replicate 40 'a') (List.replicate 40 'b')
    (some ['1']) none (some ['1'])
    (List.replicate 40 'a' ++ " 1 1 1".toList)
    (List.replicate 40 'a' ++ " 2 2".toList)
    (List.replicate 40 'b' ++ " 3 3 1".toList)
    "hello".toList "world".toList [] [] none
    (by decide) (by decide) (by decide) (by decide)

/-- Claim C5: when the stream is exhausted and the captured stderr buffer is
non-empty, NextPart returns the classified error instead of EOF: the first
stderr line with any `fatal: ` marker removed yields NotFound when it
mentions a missing path or a bad revision, InvalidArgument when it matches
the has-only-N-lines pattern, and Unknown otherwise. -/
theorem blame_stderr_classified_over_eof
    (stderrBuf : Str) (cache : List (Str × Commit)) (scanE : Option Str)
    (hne : stderrBuf ≠ []) :
    nextPart
      { stream := [], scanErr := scanE, lastLine := [], commitCache := cache
        stderr := stderrBuf } =
      { part := none
        err := some (classifyBlameStderr stderrBuf)
        reader :=
          { stream := [], scanErr := scanE, lastLine := [], commitCache := cache
            stderr := [] } } ∧
    (let line := trimLeading "fatal: ".toList (blameFirstLine stderrBuf)
     classifyBlameStderr stderrBuf =
       if containsSub line "no such path".toList then .status .notFound line
       else if containsSub line "bad revision".toList then .status .notFound line
       else if matchHasOnlyLines line then .status .invalidArgument line
       else .status .unknown line) := by
  constructor
  · have hfalse : stderrBuf.isEmpty = false := by
      cases stderrBuf with
      | nil => exact absurd rfl hne
      | cons c cs => rfl
    unfold nextPart
    simp [nextPartLoop_nil, hfalse]
  · simp only [classifyBlameStderr]

/-- Witness for C5 at a concrete stderr buffer containing a bad-revision
message. -/
theorem blame_stderr_classified_over_eof_witness :
    nextPart
      { stream := [], scanErr := none, lastLine := [], commitCache := []
        stderr := "fatal: bad revision 'zzz'".toList } =
      { part := none
        err := some (.status .notFound "bad revision 'zzz'".toList)
        reader :=
          { stream := [], scanErr := none, lastLine := [], commitCache := []
            stderr := [] } } := by
  have h := blame_stderr_classified_over_eof "fatal: bad revision 'zzz'".toList [] none
    (by decide)
  rw [h.1]
  have hc : classifyBlameStderr "fatal: bad revision 'zzz'".toList =
      .status .notFound "bad revision 'zzz'".toList := by decide
  rw [hc]

/-- Claim C10: a stream ending while a commit block with a content line is
pending yields the final BlamePart and the EOF error in the same call, both
non-nil. -/
theorem blame_final_part_with_eof
    {s : Str} {n1 : Option Str} {head1 : Str} (c1 : Str) (scanE : Option Str)
    (h1 : parseBlameHead head1 = some (s, n1))
    (hscan : scanE = none) :
    nextPart
      { stream := [head1, '\t' :: c1], scanErr := scanE, lastLine := []
        commitCache := [], stderr := [] } =
      { part := some ⟨{ sha := s }, [c1]⟩
        err := some .eof
        reader :=
          { stream := [], scanErr := scanE, lastLine := [], commitCache := []
            stderr := [] } } := by
  subst hscan
  have hloop : nextPartLoop [] none [] [head1, '\t' :: c1] =
      LoopOut.done (some { sha := s }) [c1] [] := by
    rw [nextPartLoop_head_fresh _ _ _ h1 (show cacheFind [] s = none from rfl)]
    rw [nextPartLoop_tab]
    rfl
  unfold nextPart
  simp [hloop]

/-- Witness for C10 at a concrete one-block stream. -/
theorem blame_final_part_with_eof_witness :
    nextPart
      { stream := [List.replicate 40 'a' ++ " 1 1 1".toList, '\t' :: "hello".toList]
        scanErr := none, lastLine := [], commitCache := [], stderr := [] } =
      { part := some ⟨{ sha := List.replicate 40 'a' }, ["hello".toList]⟩
        err := some .eof
        reader :=
          { stream := [], scanErr := none, lastLine := [], commitCache := []
            stderr := [] } } :=
  @blame_final_part_with_eof (List.replicate 40 'a') (some ['1'])
    (List.replicate 40 'a' ++ " 1 1 1".toList) "hello".toList none (by decide) rfl

/-! Claims about the commit-listing rename handling and divergence
counting. -/

/-- Claim C6: rename details are queried only at the first and the last
commit of the returned page, and the leading commit is removed exactly when
some rename detail marks it as the before side of a rename whose old path
equals the filtered path. -/
theorem rename_boundary_query_and_leading_dedup
    (q : Str → PathRenameDetails) (commits : List Commit)
    (rds : List PathRenameDetails) (path : Str) (first : Commit)
    (hhead : commits.head? = some first) :
    (∀ sha ∈ (getRenameDetails q commits).2,
        some sha = commits.head?.map Commit.sha ∨
        some sha = commits.getLast?.map Commit.sha) ∧
    ((∃ rd ∈ rds, first.sha = rd.commitSHABefore ∧ path = rd.oldPath) →
        cleanupCommitsForRename commits rds path = commits.tail) ∧
    ((¬ ∃ rd ∈ rds, first.sha = rd.commitSHABefore ∧ path = rd.oldPath) →
        cleanupCommitsForRename commits rds path = commits) := by
  cases commits with
  | nil => simp at hhead
  | cons c0 rest =>
    have hc0 : c0 = first := by simpa using hhead
    subst hc0
    refine ⟨?_, ?_, ?_⟩
    · intro sha hsha
      cases rest with
      | nil =>
        simp [getRenameDetails] at hsha
        subst hsha
        left
        simp
      | cons r1 rrest =>
        have hlen : ¬((c0 :: r1 :: rrest : List Commit).length = 1) := by simp
        simp only [getRenameDetails, if_neg hlen, List.mem_cons,
          List.mem_singleton, List.not_mem_nil, or_false] at hsha
        rcases hsha with h | h
        · subst h; left; simp
        · subst h
          right
          rw [List.getLast!_cons, List.getLast?_cons, List.getLastD_eq_getLast?]
          simp
    · intro hex
      have hany : rds.any
          (fun rd => c0.sha = rd.commitSHABefore ∧ path = rd.oldPath) = true := by
        simp only [List.any_eq_true, decide_eq_true_eq]
        exact hex
      simp only [cleanupCommitsForRename, hany, if_true, List.tail_cons]
      exact List.drop_one (c0 :: rest) ▸ rfl
    · intro hnex
      have hany : rds.any
          (fun rd => c0.sha = rd.commitSHABefore ∧ path = rd.oldPath) = false := by
        rw [Bool.eq_false_iff]
        intro hcontra
        simp only [List.any_eq_true, decide_eq_true_eq] at hcontra
        exact hnex hcontra
      simp only [cleanupCommitsForRename, hany, if_false, Bool.false_eq_true]

/-- Witness for C6: a two-commit page whose leading commit is the before
side of a rename of the filtered path loses exactly that commit. -/
theorem rename_boundary_query_and_leading_dedup_witness :
    cleanupCommitsForRename
      [{ sha := "aa".toList }, { sha := "bb".toList }]
      [{ oldPath := "old.txt".toList, newPath := "new.txt".toList
         commitSHABefore := "aa".toList }]
      "old.txt".toList =
      [{ sha := "bb".toList }] :=
  (rename_boundary_query_and_leading_dedup (fun _ => {})
      [{ sha := "aa".toList }, { sha := "bb".toList }]
      [{ oldPath := "old.txt".toList, newPath := "new.txt".toList
         commitSHABefore := "aa".toList }]
      "old.txt".toList { sha := "aa".toList } rfl).2.1
    ⟨_, List.mem_singleton.mpr rfl, rfl, rfl⟩

theorem cutTab_eq_none {out : Str} (h : out.contains '\t' = false) :
    cutTab out = none := by
  induction out with
  | nil => rfl
  | cons c cs ih =>
    simp only [List.contains_cons, Bool.or_eq_false_iff] at h
    have hc : ¬(c = '\t') := by
      intro hcontra
      subst hcontra
      simp at h
    unfold cutTab
    simp [hc, ih h.2]

/-- Claim C7: the rev-list left-right output `3\t5\n` parses to the
divergence Ahead 3, Behind 5, and an output with no tab separator yields an
error, never a zero-valued divergence result. -/
theorem commit_divergence_parse_spec :
    getCommitDivergence "3\t5\n".toList = .ok { ahead := 3, behind := 5 } ∧
    ∀ out : Str, out.contains '\t' = false →
      getCommitDivergence out = .error .unexpectedOutput := by
  refine ⟨rfl, ?_⟩
  intro out h
  unfold getCommitDivergence
  rw [cutTab_eq_none h]

/-- Witness for C7 at the tab-free output `35\n`. -/
theorem commit_divergence_parse_spec_witness :
    ("35\n".toList.contains '\t' = false) ∧
    getCommitDivergence "35\n".toList = .error .unexpectedOutput :=
  ⟨by decide, commit_divergence_parse_spec.2 "35\n".toList (by decide)⟩

/-! Claim about the branch protection rule. -/

/-- Claim C9: one branch-rule evaluation stamps the Bypassed flag uniformly
on all its violations, set exactly when the caller allowed bypass and the
actor matches the rule's bypass policy; violations of one evaluation never
carry differing Bypassed values, and a bypassed evaluation is never
critical, for both MergeVerify and RefChangeVerify. -/
theorem branch_rule_bypass_uniform (v : BranchRule) (i : MergeVerifyInput)
    (j : RefChangeVerifyInput)
    (herr : (v.pullReqMergeVerify i).2.2 = none) :
    (∀ rv ∈ (v.mergeVerify i).2.1,
        rv.bypassed = (i.allowBypass && v.bypassMatches i.actor i.isRepoOwner)) ∧
    (∀ rv1 ∈ (v.mergeVerify i).2.1, ∀ rv2 ∈ (v.mergeVerify i).2.1,
        rv1.bypassed = rv2.bypassed) ∧
    ((i.allowBypass && v.bypassMatches i.actor i.isRepoOwner) = true →
        IsCritical (v.mergeVerify i).2.1 = false) ∧
    (∀ rv ∈ (v.refChangeVerify j).1,
        rv.bypassed = (j.allowBypass && v.bypassMatches j.actor j.isRepoOwner)) ∧
    ((j.allowBypass && v.bypassMatches j.actor j.isRepoOwner) = true →
        IsCritical (v.refChangeVerify j).1 = false) := by
  rcases hmv : v.pullReqMergeVerify i with ⟨out, vs, err⟩
  rw [hmv] at herr
  simp only at herr
  subst herr
  have hres : (v.mergeVerify i).2.1 =
      vs.map (fun rv =>
        { rv with bypassed := i.allowBypass && v.bypassMatches i.actor i.isRepoOwner }) := by
    simp [BranchRule.mergeVerify, hmv]
  have hmem : ∀ rv ∈ (v.mergeVerify i).2.1,
      rv.bypassed = (i.allowBypass && v.bypassMatches i.actor i.isRepoOwner) := by
    intro rv hrv
    rw [hres] at hrv
    obtain ⟨rv0, _, hr⟩ := List.mem_map.mp hrv
    subst hr
    rfl
  refine ⟨hmem, ?_, ?_, ?_, ?_⟩
  · intro rv1 h1 rv2 h2
    rw [hmem rv1 h1, hmem rv2 h2]
  · intro hb
    rw [hres]
    simp only [IsCritical, List.any_map, List.any_eq_false]
    intro rv _
    simp [Function.comp, RuleViolations.isCritical, hb]
  · intro rv hrv
    unfold BranchRule.refChangeVerify at hrv
    by_cases hc : j.refType ≠ RefType.branch ∨ j.refNames.isEmpty
    · rw [if_pos hc] at hrv
      simp at hrv
    · rw [if_neg hc] at hrv
      rcases hl : v.lifecycleRefChangeVerify j with ⟨lvs, lerr⟩
      rw [hl] at hrv
      simp only at hrv
      obtain ⟨rv0, _, hr⟩ := List.mem_map.mp hrv
      subst hr
      rfl
  · intro hb
    unfold BranchRule.refChangeVerify
    by_cases hc : j.refType ≠ RefType.branch ∨ j.refNames.isEmpty
    · rw [if_pos hc]
      simp [IsCritical]
    · rw [if_neg hc]
      rcases hl : v.lifecycleRefChangeVerify j with ⟨lvs, lerr⟩
      simp only [IsCritical, List.any_map, List.any_eq_false]
      intro rv _
      simp [Function.comp, RuleViolations.isCritical, hb]

/-- Bypass-policy rule instance used by the C9 witness: the actor always
matches and the pull-request policy reports one violation. -/
def bypassAllRule : BranchRule :=
  { bypassMatches := fun _ _ => true
    pullReqMergeVerify := fun _ =>
      ({ deleteSourceBranch := false },
        [{ ruleRef := "r", bypassed := false, violations := [{ code := "c", message := "m" }] }],
        none)
    lifecycleRefChangeVerify := fun _ => ([], none) }

/-- Merge-verify input instance used by the C9 witness. -/
def bypassAllInput : MergeVerifyInput :=
  { actor := none, allowBypass := true, isRepoOwner := false
    targetRepo := { id := 1, gitUID := "t", path := "p" }
    sourceRepo := { id := 1, gitUID := "t", path := "p" }
    pullReq :=
      { id := 1, number := 1, title := "t", sourceRepoID := 1, targetRepoID := 1
        sourceBranch := "s", targetBranch := "m", sourceSHA := "sha"
        state := .opened, isDraft := false, mergeCheckStatus := .mergeable }
    reviewers := [], method := .merge, checkResults := [], codeOwners := none }

/-- Ref-change input instance used by the C9 witness. -/
def bypassAllRefInput : RefChangeVerifyInput :=
  { actor := none, allowBypass := true, isRepoOwner := false
    repo := { id := 1, gitUID := "t", path := "p" }
    refType := RefType.branch, refNames := ["b"] }

/-- Witness for C9: the always-matching bypass rule yields a non-critical
result even though its pull-request policy reported a violation. -/
theorem branch_rule_bypass_uniform_witness :
    IsCritical (bypassAllRule.mergeVerify bypassAllInput).2.1 = false :=
  (branch_rule_bypass_uniform bypassAllRule bypassAllInput bypassAllRefInput
    rfl).2.2.1 rfl

/-! Claims about the commit-files use case. -/

theorem decodeActions_error_of_corrupt {actions : List CommitFileAction}
    (h : ∃ a ∈ actions, a.encoding = ContentEncodingType.base64 ∧
      goBase64Decode a.payload = none) :
    decodeActions actions = .error .base64DecodeFailure := by
  induction actions with
  | nil => simp at h
  | cons a rest ih =>
    obtain ⟨b, hb, henc, hdec⟩ := h
    rcases List.mem_cons.mp hb with rfl | hbrest
    · unfold decodeActions
      simp [henc, hdec]
    · have hrest := ih ⟨b, hbrest, henc, hdec⟩
      unfold decodeActions
      rw [hrest]
      cases hae : a.encoding with
      | base64 =>
        cases hd : goBase64Decode a.payload with
        | none => simp
        | some bs => simp
      | utf8 => simp
      | unspecified => simp

theorem decodeActions_ok_passthrough {actions : List CommitFileAction}
    {gas : List GitCommitFileAction}
    (h : decodeActions actions = .ok gas) :
    gas.length = actions.length ∧
    ∀ (i : Nat) (a : CommitFileAction), actions[i]? = some a →
      a.encoding ≠ ContentEncodingType.base64 →
      ∃ g : GitCommitFileAction, gas[i]? = some g ∧ g.payload = a.payload := by
  induction actions generalizing gas with
  | nil =>
    simp only [decodeActions] at h
    cases h
    exact ⟨rfl, by intro i a ha; simp at ha⟩
  | cons a rest ih =>
    unfold decodeActions at h
    cases hae : a.encoding with
    | base64 =>
      rw [hae] at h
      cases hd : goBase64Decode a.payload with
      | none => rw [hd] at h; simp at h
      | some bs =>
        rw [hd] at h
        cases hrest : decodeActions rest with
        | error e => rw [hrest] at h; simp at h
        | ok tl =>
          rw [hrest] at h
          simp only at h
          cases h
          obtain ⟨hlen, hpass⟩ := ih hrest
          refine ⟨by simp [hlen], ?_⟩
          intro i b hb hbenc
          cases i with
          | zero =>
            simp only [List.getElem?_cons_zero] at hb
            cases hb
            exact absurd hae hbenc
          | succ n =>
            simp only [List.getElem?_cons_succ] at hb ⊢
            exact hpass n b hb hbenc
    | utf8 =>
      rw [hae] at h
      cases hrest : decodeActions rest with
      | error e => rw [hrest] at h; simp at h
      | ok tl =>
        rw [hrest] at h
        simp only at h
        cases h
        obtain ⟨hlen, hpass⟩ := ih hrest
        refine ⟨by simp [hlen], ?_⟩
        intro i b hb hbenc
        cases i with
        | zero =>
          simp only [List.getElem?_cons_zero] at hb ⊢
          cases hb
          exact ⟨_, rfl, rfl⟩
        | succ n =>
          simp only [List.getElem?_cons_succ] at hb ⊢
          exact hpass n b hb hbenc
    | unspecified =>
      rw [hae] at h
      cases hrest : decodeActions rest with
      | error e => rw [hrest] at h; simp at h
      | ok tl =>
        rw [hrest] at h
        simp only at h
        cases h
        obtain ⟨hlen, hpass⟩ := ih hrest
        refine ⟨by simp [hlen], ?_⟩
        intro i b hb hbenc
        cases i with
        | zero =>
          simp only [List.getElem?_cons_zero] at hb ⊢
          cases hb
          exact ⟨_, rfl, rfl⟩
        | succ n =>
          simp only [List.getElem?_cons_succ] at hb ⊢
          exact hpass n b hb hbenc

/-- Claim C8: a base64-encoded file action whose payload fails decoding makes
CommitFiles return the decode error — classified InvalidArgument — without
any git write; when all payloads decode, the git write receives, for every
utf8 or unset-encoding action, the payload bytes unchanged. -/
theorem commit_files_payload_handling (env : CommitFilesEnv) (session : Session)
    (input : CommitFilesOptions) (repo : Repository)
    (hacc : env.getRepoCheckAccess = .ok repo)
    (hprot : commitFilesProtectCheck env input = .ok none) :
    ((∃ a ∈ input.actions, a.encoding = ContentEncodingType.base64 ∧
        goBase64Decode a.payload = none) →
      (ControllerCommitFiles env session input).1 = .error .base64DecodeFailure ∧
      (ControllerCommitFiles env session input).2 = [] ∧
      classifyCommitFilesErr .base64DecodeFailure = .invalidArgument) ∧
    (∀ gas, decodeActions input.actions = .ok gas →
      (∃ p, (ControllerCommitFiles env session input).2 = [.gitCommitFiles p] ∧
        p.actions = gas) ∧
      ∀ (i : Nat) (a : CommitFileAction), input.actions[i]? = some a →
        a.encoding ≠ ContentEncodingType.base64 →
        ∃ g : GitCommitFileAction, gas[i]? = some g ∧ g.payload = a.payload) := by
  constructor
  · intro hbad
    have hdec := decodeActions_error_of_corrupt hbad
    unfold ControllerCommitFiles
    rw [hacc, hprot, hdec]
    exact ⟨rfl, rfl, rfl⟩
  · intro gas hgas
    constructor
    · unfold ControllerCommitFiles
      simp only [hacc, hprot, hgas]
      cases hgit : env.gitCommitFiles
          { writeParams := createRPCInternalWriteParams env.apiURL session repo
            title := input.title, message := input.message
            branch := input.branch, newBranch := input.newBranch
            actions := gas
            committer := rpcIdentityFromPrincipal systemServicePrincipal
            author := rpcIdentityFromPrincipal session.principal } with
      | error e => exact ⟨_, rfl, rfl⟩
      | ok commitID => exact ⟨_, rfl, rfl⟩
    · exact (decodeActions_ok_passthrough hgas).2

/-- Commit-files environment instance used by the C8 witness. -/
def c8Env : CommitFilesEnv :=
  { apiURL := "http://internal"
    getRepoCheckAccess := .ok { id := 1, gitUID := "repo-uid", path := "space/repo" }
    isSpaceAdmin := .ok false
    forRepository := .ok ()
    canPush := .ok []
    gitCommitFiles := fun _ => .ok "commit-sha" }

/-- Commit-files input instance used by the C8 witness: one base64 action
whose payload is not valid base64. -/
def c8Input : CommitFilesOptions :=
  { title := "t", message := "", branch := "main", newBranch := ""
    actions :=
      [{ action := FileAction.create, path := "a.txt"
         payload := "####".toList.map Char.toNat
         encoding := ContentEncodingType.base64, sha := "" }] }

/-- Witness for C8: the corrupt base64 payload fails the call with the
decode error, classified InvalidArgument, and performs no git write. -/
theorem commit_files_payload_handling_witness :
    (ControllerCommitFiles c8Env { principal := { id := 7, displayName := "A", email := "a@b" } }
        c8Input).1 = .error .base64DecodeFailure ∧
    (ControllerCommitFiles c8Env { principal := { id := 7, displayName := "A", email := "a@b" } }
        c8Input).2 = [] ∧
    classifyCommitFilesErr .base64DecodeFailure = .invalidArgument :=
  (commit_files_payload_handling c8Env
      { principal := { id := 7, displayName := "A", email := "a@b" } } c8Input
      { id := 1, gitUID := "repo-uid", path := "space/repo" } rfl rfl).1
    ⟨{ action := FileAction.create, path := "a.txt"
       payload := "####".toList.map Char.toNat
       encoding := ContentEncodingType.base64, sha := "" },
      List.mem_singleton.mpr rfl, rfl, by decide⟩

/-! Claims about the merge orchestrator. -/

/-- Claim C2: a merge request whose SourceSHA does not match the pull
request's stored SourceSHA as re-read under the lock is rejected before any
git write, with the distinct newer-commit message. -/
theorem merge_stale_source_sha_rejected (env : MergeEnv) (session : Session)
    (input : MergeInput) (targetRepo : Repository) (pr : PullReq)
    (hacc : env.getRepoCheckAccess = .ok targetRepo)
    (hlock : env.lockErr = none)
    (hpr : env.findPR = .ok pr)
    (hmerged : pr.merged = none)
    (hstate : pr.state = PullReqState.opened)
    (hsha : pr.sourceSHA ≠ input.sourceSHA) :
    ControllerMerge env session input =
      (.failure (.badRequest
        "A newer commit is available. Only the latest commit can be merged."), []) := by
  unfold ControllerMerge
  simp only [hacc, hlock, hpr]
  simp [hmerged, hstate, hsha]

/-- Pull request instance used by the C2 witness: stored SourceSHA `abc`. -/
def c2PullReq : PullReq :=
  { id := 10, number := 5, title := "T", sourceRepoID := 1, targetRepoID := 1
    sourceBranch := "feat", targetBranch := "main", sourceSHA := "abc"
    state := .opened, isDraft := false, mergeCheckStatus := .mergeable }

/-- Merge environment instance used by the C2 witness. -/
def c2Env : MergeEnv :=
  { apiURL := "http://internal", now := 1000
    getRepoCheckAccess := .ok { id := 1, gitUID := "uid", path := "space/repo" }
    findPR := .ok c2PullReq
    listReviewers := .ok []
    isRepoOwner := .ok true
    listCheckResults := .ok []
    forRepository := .ok (fun _ => .ok ({}, []))
    codeOwnersEvaluate := .error .notFound
    findRepo := fun _ => .error (.internal "unused")
    gitMerge := fun _ => .error (.other "unused") }

/-- Witness for C2: a merge request carrying SourceSHA `zzz` against the
stored `abc` is rejected with the newer-commit message and no effects. -/
theorem merge_stale_source_sha_rejected_witness :
    ControllerMerge c2Env { principal := { id := 7, displayName := "A", email := "a@b" } }
      { method := .merge, sourceSHA := "zzz", bypassRules := false, dryRun := false } =
      (.failure (.badRequest
        "A newer commit is available. Only the latest commit can be merged."), []) :=
  merge_stale_source_sha_rejected c2Env
    { principal := { id := 7, displayName := "A", email := "a@b" } }
    { method := .merge, sourceSHA := "zzz", bypassRules := false, dryRun := false }
    { id := 1, gitUID := "uid", path := "space/repo" } c2PullReq
    rfl rfl rfl rfl rfl (by decide)

/-- Claim C1: when the rule-set MergeVerify reports a critical violation,
Controller.Merge returns the violation list as structured data with no
error, and performs no git merge and no pull-request store update — in fact
no write effect at all. -/
theorem merge_critical_violations_block (env : MergeEnv) (session : Session)
    (input : MergeInput) (targetRepo : Repository) (pr : PullReq)
    (reviewers : List Reviewer) (owner : Bool) (checks : List CheckResult)
    (rules : MergeVerifyInput → Except MergeErr (MergeVerifyOutput × List RuleViolations))
    (out : MergeVerifyOutput) (violations : List RuleViolations)
    (hacc : env.getRepoCheckAccess = .ok targetRepo)
    (hlock : env.lockErr = none)
    (hpr : env.findPR = .ok pr)
    (hmerged : pr.merged = none)
    (hstate : pr.state = PullReqState.opened)
    (hsha : pr.sourceSHA = input.sourceSHA)
    (hdraft : pr.isDraft = false)
    (hrev : env.listReviewers = .ok reviewers)
    (hfork : pr.sourceRepoID ≠ pr.targetRepoID →
      ∃ r, env.findRepo pr.sourceRepoID = .ok r)
    (howner : env.isRepoOwner = .ok owner)
    (hchecks : env.listCheckResults = .ok checks)
    (hrules : env.forRepository = .ok rules)
    (hco : ∀ msg, env.codeOwnersEvaluate ≠ .error (.other msg))
    (hmv : ∀ inp, rules inp = .ok (out, violations))
    (hcrit : IsCritical violations = true) :
    ControllerMerge env session input =
      (.violations { conflictFiles := [], ruleViolations := violations }, []) ∧
    ∀ e ∈ (ControllerMerge env session input).2,
      (∀ p, e ≠ MergeEffect.gitMerge p) ∧ (∀ pr2, e ≠ MergeEffect.prUpdate pr2) := by
  have hmain : ControllerMerge env session input =
      (.violations { conflictFiles := [], ruleViolations := violations }, []) := by
    unfold ControllerMerge
    simp only [hacc, hlock, hpr, hrev, howner, hchecks, hrules]
    by_cases hf : pr.sourceRepoID = pr.targetRepoID
    · cases hcoe : env.codeOwnersEvaluate with
      | ok co => simp [hmerged, hstate, hsha, hdraft, hf, hcoe, hmv, hcrit]
      | error e =>
        cases e with
        | notFound => simp [hmerged, hstate, hsha, hdraft, hf, hcoe, hmv, hcrit]
        | other msg => exact absurd hcoe (hco msg)
    · obtain ⟨r, hr⟩ := hfork hf
      cases hcoe : env.codeOwnersEvaluate with
      | ok co => simp [hmerged, hstate, hsha, hdraft, hf, hr, hcoe, hmv, hcrit]
      | error e =>
        cases e with
        | notFound => simp [hmerged, hstate, hsha, hdraft, hf, hr, hcoe, hmv, hcrit]
        | other msg => exact absurd hcoe (hco msg)
  refine ⟨hmain, ?_⟩
  rw [hmain]
  intro e he
  exact absurd he (List.not_mem_nil e)

/-- Rule set instance used by the C1 witness: one non-bypassed violation. -/
def c1Rules : MergeVerifyInput → Except MergeErr (MergeVerifyOutput × List RuleViolations) :=
  fun _ => .ok ({ deleteSourceBranch := false },
    [{ ruleRef := "branch-rule", bypassed := false
       violations := [{ code := "pullreq.merge.blocked", message := "merge is blocked" }] }])

/-- Merge environment instance used by the C1 witness. -/
def c1Env : MergeEnv :=
  { apiURL := "http://internal", now := 1000
    getRepoCheckAccess := .ok { id := 1, gitUID := "uid", path := "space/repo" }
    findPR := .ok c2PullReq
    listReviewers := .ok []
    isRepoOwner := .ok true
    listCheckResults := .ok []
    forRepository := .ok c1Rules
    codeOwnersEvaluate := .error .notFound
    findRepo := fun _ => .error (.internal "unused")
    gitMerge := fun _ => .error (.other "unused") }

/-- Witness for C1: the critical violation short-circuits the merge with the
violation list and an empty effect list. -/
theorem merge_critical_violations_block_witness :
    ControllerMerge c1Env { principal := { id := 7, displayName := "A", email := "a@b" } }
      { method := .merge, sourceSHA := "abc", bypassRules := false, dryRun := false } =
      (.violations
        { conflictFiles := []
          ruleViolations :=
            [{ ruleRef := "branch-rule", bypassed := false
               violations := [{ code := "pullreq.merge.blocked", message := "merge is blocked" }] }] },
        []) :=
  (merge_critical_violations_block c1Env
    { principal := { id := 7, displayName := "A", email := "a@b" } }
    { method := .merge, sourceSHA := "abc", bypassRules := false, dryRun := false }
    { id := 1, gitUID := "uid", path := "space/repo" } c2PullReq [] true []
    c1Rules { deleteSourceBranch := false }
    [{ ruleRef := "branch-rule", bypassed := false
       violations := [{ code := "pullreq.merge.blocked", message := "merge is blocked" }] }]
    rfl rfl rfl rfl rfl rfl rfl rfl
    (fun h => absurd rfl h) rfl rfl rfl
    (fun _ h => CodeOwnersErr.noConfusion (Except.error.inj h))
    (fun _ => rfl) rfl).1

/-- Target repository instance of the C3 counterexample run. -/
def c3TargetRepo : Repository := { id := 1, gitUID := "target-uid", path := "space/target" }

/-- Source repository instance of the C3 counterexample run (fork). -/
def c3SourceRepo : Repository := { id := 2, gitUID := "source-uid", path := "space/source" }

/-- Session instance of the C3 counterexample run. -/
def c3Session : Session :=
  { principal := { id := 7, displayName := "Alice", email := "alice@example.com" } }

/-- Pull request instance of the C3 counterexample run: source and target
repositories differ (fork boundary). -/
def c3PullReq : PullReq :=
  { id := 10, number := 5, title := "T", sourceRepoID := 2, targetRepoID := 1
    sourceBranch := "feat", targetBranch := "main", sourceSHA := "abc"
    state := .opened, isDraft := false, mergeCheckStatus := .mergeable }

/-- Merge environment of the C3 counterexample run: the protection rules
request the post-merge source-branch deletion and the git merge succeeds. -/
def c3Env : MergeEnv :=
  { apiURL := "http://internal", now := 1000
    getRepoCheckAccess := .ok c3TargetRepo
    findPR := .ok c3PullReq
    listReviewers := .ok []
    isRepoOwner := .ok true
    listCheckResults := .ok []
    forRepository := .ok (fun _ => .ok ({ deleteSourceBranch := true }, []))
    codeOwnersEvaluate := .error .notFound
    findRepo := fun i => if i = 2 then .ok c3SourceRepo else .error (.internal "no such repo")
    gitMerge := fun _ =>
      .ok { baseSHA := "base", mergeBaseSHA := "mb", mergeSHA := "merge", headSHA := "head" } }

/-- Claim C3, evaluated at the failing input: on this fork-boundary merge the
post-merge source-branch deletion is invoked with write parameters built for
the target repository (the `sourceRepo` variable still holds the target repo
when they are created), and those parameters differ from the ones built for
the source repository. -/
theorem merge_fork_delete_params_built_for_target :
    (ControllerMerge c3Env c3Session
        { method := .merge, sourceSHA := "abc", bypassRules := false, dryRun := false }).2.filterMap
        (fun e => match e with
          | MergeEffect.deleteBranch p => some p.writeParams
          | _ => none) =
      [createRPCInternalWriteParams c3Env.apiURL c3Session c3TargetRepo] ∧
    createRPCInternalWriteParams c3Env.apiURL c3Session c3TargetRepo ≠
      createRPCInternalWriteParams c3Env.apiURL c3Session c3SourceRepo := by
  exact ⟨rfl, by decide⟩

end Harness
